import Mathlib

/-!
Verification of the OpenClaw ESP32-S3 firmware
(`src/firmware/openclaw-esp32s3-audio/src/main.cpp`) against its design
specification.  The firmware is a serial/button-triggered client for a remote
chat-completion gateway.  We shallowly embed the pure core of each routine:

* `readDeviceId` — hex formatting of the 64-bit efuse identifier,
* the session-key composition from `setup`,
* `handleSerialInput` — the line-buffered serial producer,
* `handleBootButton` — the debounced button producer,
* `connectWifiBlocking` — the blocking Wi-Fi retry loop,
* `runPrompt` and `askOpenClaw` — prompt orchestration, JSON request
  construction, and response classification (with the vendor JSON
  parser/serializer modelled explicitly).

Machine integers are modelled as `Nat`/`Int` with explicit reductions modulo
`2^w` at every point where the C code truncates.
-/

namespace OpenClaw

/-! ## Hexadecimal formatting (`snprintf` with `%04X` / `%08X`) -/

/-- One uppercase hexadecimal digit (for `n < 16`). -/
def hexDigit (n : Nat) : Char :=
  if n < 10 then Char.ofNat (48 + n) else Char.ofNat (55 + n)

/-- Digit extraction working from the most significant digit, with enough
fuel to cover every digit of the starting value. -/
def hexDigitsAux : Nat → Nat → List Char
  | 0, _ => []
  | fuel + 1, n =>
    if n < 16 then [hexDigit n]
    else hexDigitsAux fuel (n / 16) ++ [hexDigit (n % 16)]

/-- The uppercase hexadecimal digits of `n`, most significant first, as
`printf` `%X` prints them (a single `'0'` for `n = 0`). -/
def hexDigits (n : Nat) : List Char :=
  hexDigitsAux (n + 1) n

/-- `printf` `%0wX`: the digits of `n`, left-padded with zeros to width `w`. -/
def fmtHexPad (w n : Nat) : List Char :=
  List.replicate (w - (hexDigits n).length) '0' ++ hexDigits n

/-! ## Device Identity Provider (`readDeviceId`)

The C code does
`snprintf(out, sizeof(out), "%04X%08X", (uint16_t)(mac >> 32), (uint32_t)mac)`:
the first field is `mac` shifted right by 32 and truncated to 16 bits
(bits 47..32), the second is the low 32 bits. -/

/-- Embedding of `readDeviceId`, as a function of the 64-bit efuse value. -/
def readDeviceId (mac : Nat) : String :=
  String.mk (fmtHexPad 4 (mac / 4294967296 % 65536) ++ fmtHexPad 8 (mac % 4294967296))

/-- The device identity as the spec's words describe it for a full 64-bit
identifier: the zero-padded high 16 bits (bits 63..48) then the low 32 bits. -/
def specDeviceId64 (mac : Nat) : String :=
  String.mk (fmtHexPad 4 (mac / 281474976710656 % 65536) ++ fmtHexPad 8 (mac % 4294967296))

/-- The sixteen uppercase hexadecimal digit characters. -/
def upperHexChars : List Char :=
  ['0', '1', '2', '3', '4', '5', '6', '7', '8', '9', 'A', 'B', 'C', 'D', 'E', 'F']

/-! ## Session key composition (`setup`, line 215) -/

/-- Embedding of
`String("agent:") + OPENCLAW_AGENT_ID + ":openai:esp32-" + g_deviceId`. -/
def sessionKey (agentId deviceId : String) : String :=
  "agent:" ++ agentId ++ ":openai:esp32-" ++ deviceId

/-! ## Serial line producer (`handleSerialInput`)

The loop body of `handleSerialInput` processes one character against the
accumulation buffer `g_inputLine`: carriage returns are skipped, a newline
finalizes the buffer into a prompt submission (a `PromptEvent`) and clears it,
and any other character is appended only while the buffer is shorter than 512
characters.  We model the buffer as a `List Char` and let the step return the
event emitted (if any). -/

/-- One iteration of the `while (Serial.available())` loop on character `c`. -/
def serialStep (buf : List Char) (c : Char) : List Char × Option (List Char) :=
  if c = '\r' then (buf, none)
  else if c = '\n' then ([], some buf)
  else if buf.length < 512 then (buf ++ [c], none)
  else (buf, none)

/-- Feeding a whole sequence of available characters through
`handleSerialInput`, collecting the emitted prompt events in order. -/
def processSerial (buf : List Char) : List Char → List Char × List (List Char)
  | [] => (buf, [])
  | c :: cs =>
    let s := serialStep buf c
    let r := processSerial s.1 cs
    (r.1, (s.2.toList) ++ r.2)

/-! ## Debounced button producer (`handleBootButton`)

State: the latch `g_bootLatched` and the timestamp of the last recognized
edge `g_lastBootEdgeMs` (a `uint32` millisecond counter).  The input of one
poll is the sampled pin level (`low = true` means pressed, the pin idles high
through the pull-up) and the current `millis()` value.  `now - g_lastBootEdgeMs`
is 32-bit wrapping subtraction. -/

/-- 32-bit wrapping subtraction `a - b` on `uint32` values. -/
def u32sub (a b : Nat) : Nat :=
  (a % 4294967296 + 4294967296 - b % 4294967296) % 4294967296

/-- The debounce state of the BOOT button. -/
structure ButtonState where
  latched : Bool
  lastEdgeMs : Nat
  deriving Repr, DecidableEq

/-- One poll of `handleBootButton`: returns the new state and the prompt
event emitted, if any (the event carries `OPENCLAW_BUTTON_PROMPT`, abstracted
as `buttonPrompt`). -/
def handleBootButton (buttonPrompt : String) (s : ButtonState)
    (low : Bool) (now : Nat) : ButtonState × Option String :=
  if low && !s.latched && decide (u32sub now s.lastEdgeMs > 60) then
    (⟨true, now⟩, some buttonPrompt)
  else if !low && s.latched && decide (u32sub now s.lastEdgeMs > 60) then
    (⟨false, now⟩, none)
  else (s, none)

/-- A sequence of polls of `handleBootButton`, collecting emitted events. -/
def runButton (buttonPrompt : String) (s : ButtonState) :
    List (Bool × Nat) → ButtonState × List String
  | [] => (s, [])
  | p :: ps =>
    let r := handleBootButton buttonPrompt s p.1 p.2
    let rest := runButton buttonPrompt r.1 ps
    (rest.1, r.2.toList ++ rest.2)

/-! ## Network Connectivity Manager (`connectWifiBlocking`)

The routine's externally visible behaviour is a sequence of actions driven by
the successive results of `WiFi.status()`.  We index those status reads by
call order through an oracle `status : Nat → Bool` (`true` = `WL_CONNECTED`)
and record the actions performed.  The C loop does not terminate until a
status read succeeds, so the embedding is fuel-indexed: `none` means the fuel
ran out with the loop still spinning. -/

/-- The observable actions of `connectWifiBlocking`. -/
inductive WifiAct where
  | delayMs (ms : Nat)
  | printDot
  | disconnect
  | beginAssoc
  deriving Repr, DecidableEq

/-- The `while (WiFi.status() != WL_CONNECTED)` loop, started at status-read
index `i` with `attempts = att`. Each iteration waits 500 ms, prints a dot,
bumps `attempts`, and on reaching 80 resets it and forces
disconnect / 500 ms wait / re-begin. -/
def wifiLoop (status : Nat → Bool) : Nat → Nat → Nat → Option (List WifiAct)
  | 0, _, _ => none
  | fuel + 1, i, att =>
    if status i then some []
    else if att + 1 ≥ 80 then
      (wifiLoop status fuel (i + 1) 0).map
        (fun rest => WifiAct.delayMs 500 :: WifiAct.printDot :: WifiAct.disconnect ::
          WifiAct.delayMs 500 :: WifiAct.beginAssoc :: rest)
    else
      (wifiLoop status fuel (i + 1) (att + 1)).map
        (fun rest => WifiAct.delayMs 500 :: WifiAct.printDot :: rest)

/-- Embedding of `connectWifiBlocking`: an early return when the first status
read is connected, otherwise an initial association followed by the poll
loop. -/
def connectWifiBlocking (status : Nat → Bool) (fuel : Nat) : Option (List WifiAct) :=
  if status 0 then some []
  else (wifiLoop status fuel 1 0).map (fun rest => WifiAct.beginAssoc :: rest)

/-- Count occurrences of one action in a trace. -/
def countAct (a : WifiAct) : List WifiAct → Nat
  | [] => 0
  | x :: tr => (if x = a then 1 else 0) + countAct a tr

/-! ## Prompt orchestration (`runPrompt`)

`runPrompt` copies the prompt, returns at once when it is empty, and
otherwise prints the prompt, a thinking line, performs the exchange (here an
oracle `ask : String → String` standing for `askOpenClaw`) and prints the
reply.  We record the observable effects. -/

/-- The observable effects of `runPrompt`. -/
inductive Effect where
  | printLine (s : String)
  | networkExchange (prompt : String)
  deriving Repr, DecidableEq

/-- Embedding of `runPrompt`, with the chat exchange abstracted by `ask`. -/
def runPrompt (ask : String → String) (prompt : String) : List Effect :=
  if prompt.length = 0 then []
  else
    [Effect.printLine "",
     Effect.printLine ("You: " ++ prompt),
     Effect.printLine ("OpenClaw: thinking..."),
     Effect.networkExchange prompt,
     Effect.printLine ("OpenClaw: " ++ ask prompt),
     Effect.printLine ""]

/-! ## JSON documents

Modelled from the spec: the firmware delegates JSON work to the vendor
`ArduinoJson` library (`JsonDocument`, `deserializeJson`, `serializeJson`),
which is not part of this repository.  The spec requires a standard JSON
encoder/decoder: the encoder "must escape control characters and quotes
correctly", the decoder yields a document supporting nested member/index
access, and a decode failure carries a parser diagnostic string. -/

/-- A JSON document. -/
inductive Json where
  | jnull
  | jbool (b : Bool)
  | jnum (n : Int)
  | jstr (s : String)
  | jarr (items : List Json)
  | jobj (fields : List (String × Json))
  deriving Repr

/-- Member access `doc[key]` on an object node. -/
def Json.member (j : Json) (k : String) : Option Json :=
  match j with
  | .jobj fs => fs.lookup k
  | _ => none

/-- Index access `doc[i]` on an array node. -/
def Json.item (j : Json) (i : Nat) : Option Json :=
  match j with
  | .jarr xs => xs.get? i
  | _ => none

/-- `| nullptr` extraction as `const char*`: succeeds only on a string node. -/
def Json.asStr (j : Json) : Option String :=
  match j with
  | .jstr s => some s
  | _ => none

/-! ### Serialization (`serializeJson`, modelled from the spec) -/

/-- Escape one character for a JSON string literal: quote and backslash are
escaped, the named control escapes are used where they exist, remaining
control characters become `\u00XX`. -/
def escapeChar (c : Char) : List Char :=
  if c.toNat = 34 then ['\\', '"']
  else if c.toNat = 92 then ['\\', '\\']
  else if c.toNat = 8 then ['\\', 'b']
  else if c.toNat = 12 then ['\\', 'f']
  else if c = '\n' then ['\\', 'n']
  else if c = '\r' then ['\\', 'r']
  else if c = '\t' then ['\\', 't']
  else if c.toNat < 32 then '\\' :: 'u' :: fmtHexPad 4 c.toNat
  else [c]

/-- Escape a whole string for inclusion in a JSON text. -/
def escapeString (s : String) : String :=
  String.mk ((s.data.map escapeChar).flatten)

mutual

/-- Compact JSON serialization of a document. -/
def Json.render : Json → String
  | .jnull => "null"
  | .jbool b => if b then "true" else "false"
  | .jnum n => toString n
  | .jstr s => "\"" ++ escapeString s ++ "\""
  | .jarr xs => "[" ++ renderItems xs ++ "]"
  | .jobj fs => "\x7b" ++ renderFields fs ++ "\x7d"

/-- Comma-separated serialization of array items. -/
def renderItems : List Json → String
  | [] => ""
  | [x] => Json.render x
  | x :: y :: xs => Json.render x ++ "," ++ renderItems (y :: xs)

/-- Comma-separated serialization of object fields. -/
def renderFields : List (String × Json) → String
  | [] => ""
  | [(k, v)] => "\"" ++ escapeString k ++ "\":" ++ Json.render v
  | (k, v) :: f :: fs =>
    "\"" ++ escapeString k ++ "\":" ++ Json.render v ++ "," ++ renderFields (f :: fs)

end

/-! ### Deserialization (`deserializeJson`, modelled from the spec)

A standard recursive-descent JSON reader.  Diagnostics follow the vendor
library's `DeserializationError` strings: `EmptyInput` for an all-whitespace
input, `IncompleteInput` when the input ends inside a document, and
`InvalidInput` for a malformed one. -/

/-- Skip JSON insignificant whitespace. -/
def skipWs : List Char → List Char
  | [] => []
  | c :: cs => if c = ' ' || c = '\t' || c = '\n' || c = '\r' then skipWs cs else c :: cs

/-- The value of a hexadecimal digit character, if it is one. -/
def hexVal (c : Char) : Option Nat :=
  if 48 ≤ c.toNat ∧ c.toNat ≤ 57 then some (c.toNat - 48)
  else if 65 ≤ c.toNat ∧ c.toNat ≤ 70 then some (c.toNat - 55)
  else if 97 ≤ c.toNat ∧ c.toNat ≤ 102 then some (c.toNat - 87)
  else none

/-- The character named by a single-character escape, if valid. -/
def escNamed (e : Char) : Option Char :=
  if e.toNat = 34 then some (Char.ofNat 34)
  else if e.toNat = 92 then some (Char.ofNat 92)
  else if e = '/' then some '/'
  else if e = 'b' then some (Char.ofNat 8)
  else if e = 'f' then some (Char.ofNat 12)
  else if e = 'n' then some '\n'
  else if e = 'r' then some '\r'
  else if e = 't' then some '\t'
  else none

/-- Read the body of a JSON string (the opening quote already consumed),
returning the decoded characters and the remaining input. -/
def readStringBody : Nat → List Char → Except String (List Char × List Char)
  | 0, _ => .error ("IncompleteInput")
  | _, [] => .error ("IncompleteInput")
  | fuel + 1, c :: cs =>
    if c.toNat = 34 then .ok ([], cs)
    else if c.toNat = 92 then
      match cs with
      | [] => .error ("IncompleteInput")
      | e :: cs2 =>
        if e = 'u' then
          match cs2 with
          | h1 :: h2 :: h3 :: h4 :: cs3 =>
            match hexVal h1, hexVal h2, hexVal h3, hexVal h4 with
            | some a, some b, some c2, some d =>
              (readStringBody fuel cs3).map
                (fun r => (Char.ofNat (((a * 16 + b) * 16 + c2) * 16 + d) :: r.1, r.2))
            | _, _, _, _ => .error ("InvalidInput")
          | _ => .error ("IncompleteInput")
        else
          match escNamed e with
          | some ec => (readStringBody fuel cs2).map (fun r => (ec :: r.1, r.2))
          | none => .error ("InvalidInput")
    else (readStringBody fuel cs).map (fun r => (c :: r.1, r.2))

/-- Split the longest leading run of decimal digits from the input. -/
def takeDigits : List Char → List Char × List Char
  | [] => ([], [])
  | c :: cs =>
    if 48 ≤ c.toNat ∧ c.toNat ≤ 57 then
      let r := takeDigits cs
      (c :: r.1, r.2)
    else ([], c :: cs)

/-- The natural number denoted by a digit run. -/
def digitsToNat (ds : List Char) : Nat :=
  ds.foldl (fun acc c => acc * 10 + (c.toNat - 48)) 0

/-- Read a JSON number starting at the input (which begins with `-` or a
digit).  Fraction and exponent parts are consumed; the value retained is the
integer part (no payload of this firmware carries a non-integer number). -/
def readNumber (input : List Char) : Except String (Json × List Char) :=
  let signSplit : Bool × List Char :=
    match input with
    | c :: cs => if c = '-' then (true, cs) else (false, input)
    | [] => (false, [])
  let ds := takeDigits signSplit.2
  if ds.1.isEmpty then .error ("InvalidInput")
  else
    let rest2 : List Char :=
      match ds.2 with
      | c :: cs => if c = '.' then (takeDigits cs).2 else ds.2
      | [] => ds.2
    let rest3 : List Char :=
      match rest2 with
      | c :: cs =>
        if c = 'e' ∨ c = 'E' then
          match cs with
          | s :: ss => if s = '+' ∨ s = '-' then (takeDigits ss).2 else (takeDigits cs).2
          | [] => rest2
        else rest2
      | [] => rest2
    let mag : Int := (digitsToNat ds.1 : Int)
    .ok (Json.jnum (if signSplit.1 then -mag else mag), rest3)

mutual

/-- Read one JSON value, skipping leading whitespace. -/
def readValue : Nat → List Char → Except String (Json × List Char)
  | 0, _ => .error ("IncompleteInput")
  | fuel + 1, input =>
    match skipWs input with
    | [] => .error ("IncompleteInput")
    | c :: cs =>
      if c.toNat = 34 then
        (readStringBody (cs.length + 1) cs).map (fun r => (Json.jstr (String.mk r.1), r.2))
      else if c.toNat = 123 then
        match skipWs cs with
        | d :: ds => if d.toNat = 125 then .ok (Json.jobj [], ds) else readObjectRest fuel (d :: ds) []
        | [] => .error ("IncompleteInput")
      else if c.toNat = 91 then
        match skipWs cs with
        | d :: ds => if d.toNat = 93 then .ok (Json.jarr [], ds) else readArrayRest fuel (d :: ds) []
        | [] => .error ("IncompleteInput")
      else if c = 't' then
        match cs with
        | 'r' :: 'u' :: 'e' :: rest => .ok (Json.jbool true, rest)
        | _ => .error ("InvalidInput")
      else if c = 'f' then
        match cs with
        | 'a' :: 'l' :: 's' :: 'e' :: rest => .ok (Json.jbool false, rest)
        | _ => .error ("InvalidInput")
      else if c = 'n' then
        match cs with
        | 'u' :: 'l' :: 'l' :: rest => .ok (Json.jnull, rest)
        | _ => .error ("InvalidInput")
      else if c = '-' ∨ (48 ≤ c.toNat ∧ c.toNat ≤ 57) then readNumber (c :: cs)
      else .error ("InvalidInput")

/-- Read the elements of a non-empty array, the opening bracket consumed. -/
def readArrayRest : Nat → List Char → List Json → Except String (Json × List Char)
  | 0, _, _ => .error ("IncompleteInput")
  | fuel + 1, input, acc =>
    match readValue fuel input with
    | .error e => .error e
    | .ok (v, rest) =>
      match skipWs rest with
      | c :: cs =>
        if c.toNat = 44 then readArrayRest fuel cs (acc ++ [v])
        else if c.toNat = 93 then .ok (Json.jarr (acc ++ [v]), cs)
        else .error ("InvalidInput")
      | [] => .error ("IncompleteInput")

/-- Read the members of a non-empty object, the opening brace consumed. -/
def readObjectRest : Nat → List Char → List (String × Json) → Except String (Json × List Char)
  | 0, _, _ => .error ("IncompleteInput")
  | fuel + 1, input, acc =>
    match skipWs input with
    | c :: cs =>
      if c.toNat = 34 then
        match readStringBody (cs.length + 1) cs with
        | .error e => .error e
        | .ok (key, rest) =>
          match skipWs rest with
          | k :: ks =>
            if k.toNat = 58 then
              match readValue fuel ks with
              | .error e => .error e
              | .ok (v, rest2) =>
                match skipWs rest2 with
                | m :: ms =>
                  if m.toNat = 44 then readObjectRest fuel ms (acc ++ [(String.mk key, v)])
                  else if m.toNat = 125 then .ok (Json.jobj (acc ++ [(String.mk key, v)]), ms)
                  else .error ("InvalidInput")
                | [] => .error ("IncompleteInput")
            else .error ("InvalidInput")
          | [] => .error ("IncompleteInput")
      else .error ("InvalidInput")
    | [] => .error ("IncompleteInput")

end

/-- `deserializeJson`: decode a JSON text, with the vendor library's
diagnostic strings. -/
def deserializeJson (s : String) : Except String Json :=
  match skipWs s.data with
  | [] => .error ("EmptyInput")
  | input => (readValue (2 * input.length + 2) input).map (fun r => r.1)

/-! ## Response decoding (`extractAssistantText`) and exchange
classification (`askOpenClaw`, lines 145–156) -/

/-- `doc["error"]["message"] | nullptr` — present only when the node exists
and is a string. -/
def errorMessageField (doc : Json) : Option String :=
  ((doc.member ("error")).bind (fun e => e.member ("message"))).bind Json.asStr

/-- `doc["choices"][0]["message"]["content"] | nullptr`. -/
def choicesContentField (doc : Json) : Option String :=
  ((((doc.member ("choices")).bind (fun c => c.item 0)).bind
    (fun m => m.member ("message"))).bind (fun m => m.member ("content"))).bind Json.asStr

/-- Embedding of `extractAssistantText`. -/
def extractAssistantText (json : String) : String :=
  match deserializeJson json with
  | .error e => "[json-parse-error] " ++ e
  | .ok doc =>
    match errorMessageField doc with
    | some m => "[openclaw-error] " ++ m
    | none =>
      match choicesContentField doc with
      | some t => t
      | none => "[openclaw-error] missing choices[0].message.content"

/-- The outcome classification at the end of `askOpenClaw`, as a function of
the HTTP status `code` returned by `http.POST` and the raw response body. -/
def askOpenClawResult (code : Int) (raw : String) : String :=
  if code ≤ 0 then "[http-error] POST failed: " ++ toString code
  else if code ≥ 400 then "[http-" ++ toString code ++ "] " ++ raw
  else extractAssistantText raw

/-- The spec's tagged outcome of one chat exchange (§4.4 / §7). -/
inductive ChatResult where
  | Reply (content : String)
  | TransportError (code : Int)
  | HttpError (code : Int) (body : String)
  | ParseError (msg : String)
  | GatewayError (msg : String)
  | SchemaError
  deriving Repr, DecidableEq

/-- Classification as the spec's words describe it, in the spec's order:
non-positive status → `TransportError`; status ≥ 400 → `HttpError` with the
raw body; then JSON parse failure → `ParseError`; then a present
`error.message` → `GatewayError`; then a missing `choices[0].message.content`
→ `SchemaError`; otherwise `Reply`. -/
def classifySpec (code : Int) (raw : String) : ChatResult :=
  if code ≤ 0 then .TransportError code
  else if code ≥ 400 then .HttpError code raw
  else
    match deserializeJson raw with
    | .error e => .ParseError e
    | .ok doc =>
      match errorMessageField doc with
      | some m => .GatewayError m
      | none =>
        match choicesContentField doc with
        | some t => .Reply t
        | none => .SchemaError

/-- How each `ChatResult` variant is surfaced as the firmware's tagged
display string. -/
def ChatResult.render : ChatResult → String
  | .Reply c => c
  | .TransportError c => "[http-error] POST failed: " ++ toString c
  | .HttpError c b => "[http-" ++ toString c ++ "] " ++ b
  | .ParseError m => "[json-parse-error] " ++ m
  | .GatewayError m => "[openclaw-error] " ++ m
  | .SchemaError => "[openclaw-error] missing choices[0].message.content"

/-! ## Request construction (`askOpenClaw`, lines 109–119) -/

/-- The `JsonDocument` built for one chat request: `model`, `user`, and a
one-element `messages` array carrying the user prompt. -/
def chatRequestDoc (model user prompt : String) : Json :=
  Json.jobj
    [(("model"), Json.jstr model),
     (("user"), Json.jstr user),
     (("messages"), Json.jarr
       [Json.jobj [(("role"), Json.jstr ("user")), (("content"), Json.jstr prompt)]])]

/-- `serializeJson(bodyDoc, body)`: the request body sent by `http.POST`. -/
def chatRequestBody (model user prompt : String) : String :=
  (chatRequestDoc model user prompt).render

/-! ## Helper lemmas -/

theorem hexDigitsAux_length_le :
    ∀ (fuel n w : Nat), n < 16 ^ w → 0 < w → (hexDigitsAux fuel n).length ≤ w := by
  intro fuel
  induction fuel with
  | zero => intro n w _ hw; simp [hexDigitsAux]
  | succ f ih =>
    intro n w hn hw
    simp only [hexDigitsAux]
    split
    · simpa using hw
    · rename_i h
      have h16 : 16 ≤ n := Nat.le_of_not_lt h
      have hw2 : 2 ≤ w := by
        by_contra hc
        have hw1 : w = 1 := by omega
        subst hw1
        simp only [pow_one] at hn
        omega
      have hpow : 16 ^ (w - 1) * 16 = 16 ^ w := by
        rw [← pow_succ]
        congr 1
        omega
      have hdiv : n / 16 < 16 ^ (w - 1) := by omega
      have := ih (n / 16) (w - 1) hdiv (by omega)
      simp only [List.length_append, List.length_cons, List.length_nil]
      omega

theorem hexDigits_length_le (n w : Nat) (hn : n < 16 ^ w) (hw : 0 < w) :
    (hexDigits n).length ≤ w :=
  hexDigitsAux_length_le (n + 1) n w hn hw

theorem hexDigit_mem_upperHexChars (n : Nat) (h : n < 16) : hexDigit n ∈ upperHexChars := by
  interval_cases n <;> decide

theorem hexDigitsAux_subset :
    ∀ (fuel n : Nat), ∀ c ∈ hexDigitsAux fuel n, c ∈ upperHexChars := by
  intro fuel
  induction fuel with
  | zero => intro n c hc; simp [hexDigitsAux] at hc
  | succ f ih =>
    intro n c hc
    simp only [hexDigitsAux] at hc
    split at hc
    · rename_i h
      simp at hc
      exact hc ▸ hexDigit_mem_upperHexChars n h
    · rcases List.mem_append.mp hc with h1 | h2
      · exact ih (n / 16) c h1
      · simp at h2
        exact h2 ▸ hexDigit_mem_upperHexChars (n % 16) (Nat.mod_lt n (by norm_num))

theorem hexDigits_subset (n : Nat) : ∀ c ∈ hexDigits n, c ∈ upperHexChars :=
  hexDigitsAux_subset (n + 1) n

theorem fmtHexPad_length (w n : Nat) (h : (hexDigits n).length ≤ w) :
    (fmtHexPad w n).length = w := by
  simp only [fmtHexPad, List.length_append, List.length_replicate]
  omega

theorem fmtHexPad_subset (w n : Nat) :
    ∀ c ∈ fmtHexPad w n, c ∈ upperHexChars := by
  intro c hc
  rcases List.mem_append.mp hc with h1 | h2
  · rw [List.eq_of_mem_replicate h1]; decide
  · exact hexDigits_subset n c h2

/-! ## Claims -/

/-- C2 (counterexample): the claim says `readDeviceId` returns a fixed
16-character string built from the high 16 bits of the 64-bit identifier.
On the code, the output of `"%04X%08X"` has 12 characters, and the first
field is the identifier's bits 47..32, not its high 16 bits: at
`mac = 2^48` the code yields `"000000000000"` while the claim's
high-16-bits reading yields `"000100000000"`. -/
theorem readDeviceId_claim_counterexample :
    (readDeviceId 0).length = 12 ∧
    readDeviceId 281474976710656 ≠ specDeviceId64 281474976710656 := by
  constructor
  · rfl
  · decide

/-- C2 (amended): for every 64-bit identifier value, `readDeviceId` returns
a fixed 12-character uppercase hexadecimal string whose first 4 characters
are the zero-padded bits 47..32 of the identifier and whose last 8
characters are the zero-padded low 32 bits; bits 63..48 are discarded. -/
theorem readDeviceId_fixed_width_hex (mac : Nat) :
    (readDeviceId mac).length = 12 ∧
    (∀ c ∈ (readDeviceId mac).data, c ∈ upperHexChars) ∧
    (readDeviceId mac).data.take 4 = fmtHexPad 4 (mac / 4294967296 % 65536) ∧
    (readDeviceId mac).data.drop 4 = fmtHexPad 8 (mac % 4294967296) ∧
    readDeviceId mac = readDeviceId (mac % 281474976710656) := by
  have e4 : (16 : Nat) ^ 4 = 65536 := by norm_num
  have e8 : (16 : Nat) ^ 8 = 4294967296 := by norm_num
  have h4 : (fmtHexPad 4 (mac / 4294967296 % 65536)).length = 4 :=
    fmtHexPad_length 4 _ (hexDigits_length_le _ 4 (by omega) (by norm_num))
  have h8 : (fmtHexPad 8 (mac % 4294967296)).length = 8 :=
    fmtHexPad_length 8 _ (hexDigits_length_le _ 8 (by omega) (by norm_num))
  refine ⟨?_, ?_, ?_, ?_, ?_⟩
  · show (String.mk _).length = 12
    simp only [String.length, List.length_append]
    omega
  · intro c hc
    rcases List.mem_append.mp hc with h1 | h2
    · exact fmtHexPad_subset _ _ c h1
    · exact fmtHexPad_subset _ _ c h2
  · show (List.take 4 (_ ++ _)) = _
    rw [List.take_append_of_le_length (by omega), List.take_of_length_le (by omega)]
  · show (List.drop 4 (_ ++ _)) = _
    rw [List.drop_append_of_le_length (by omega), List.drop_eq_nil_of_le (by omega), List.nil_append]
  · unfold readDeviceId
    congr 2
    · congr 1
      omega
    · congr 1
      omega

/-- C2 (witness): the amended theorem evaluated at a concrete identifier. -/
theorem readDeviceId_fixed_width_hex_witness :
    (readDeviceId 43981).length = 12 ∧ 'A' ∈ upperHexChars :=
  ⟨(readDeviceId_fixed_width_hex 43981).1,
   (readDeviceId_fixed_width_hex 43981).2.1 'A' (by decide)⟩

/-- C3: the session key computed at boot is
`"agent:" ++ A ++ ":openai:esp32-" ++ D` for agent id `A` and device
identity `D`; in particular for `A = "main"` and `D = "0001ABCD12345678"`
it is `"agent:main:openai:esp32-0001ABCD12345678"` exactly. -/
theorem sessionKey_composition :
    (∀ agentId deviceId : String,
      sessionKey agentId deviceId =
        "agent:" ++ agentId ++ ":openai:esp32-" ++ deviceId) ∧
    sessionKey ("main") ("0001ABCD12345678") =
      "agent:main:openai:esp32-0001ABCD12345678" := by
  exact ⟨fun _ _ => rfl, rfl⟩

/-- C9: `runPrompt` on an empty prompt performs no effect at all: no network
exchange and no console output, so an empty serial line or an empty
configured button prompt triggers no chat exchange. -/
theorem runPrompt_empty_noop (ask : String → String) (prompt : String)
    (h : prompt.length = 0) : runPrompt ask prompt = [] := by
  simp [runPrompt, h]

/-- C9 (witness): the empty prompt with a concrete exchange oracle. -/
theorem runPrompt_empty_noop_witness :
    runPrompt (fun _ => "reply") "" = [] :=
  runPrompt_empty_noop (fun _ => "reply") "" (by decide)

/-- A carriage return leaves the serial state untouched. -/
theorem processSerial_cons_cr (buf cs : List Char) :
    processSerial buf ('\r' :: cs) = processSerial buf cs := rfl

/-- A newline emits the buffer as an event and clears it. -/
theorem processSerial_cons_nl (buf cs : List Char) :
    processSerial buf ('\n' :: cs) =
      ((processSerial [] cs).1, buf :: (processSerial [] cs).2) := rfl

/-- Any other character is appended while the buffer is below the cap and
dropped otherwise. -/
theorem processSerial_cons_other (buf cs : List Char) (c : Char)
    (h1 : c ≠ '\r') (h2 : c ≠ '\n') :
    processSerial buf (c :: cs) =
      if buf.length < 512 then processSerial (buf ++ [c]) cs
      else processSerial buf cs := by
  simp only [processSerial, serialStep, if_neg h1, if_neg h2]
  by_cases hlt : buf.length < 512
  · rw [if_pos hlt, if_pos hlt]
    rfl
  · rw [if_neg hlt, if_neg hlt]
    rfl

/-- Processing a terminated line: carriage returns are discarded and the
surviving characters extend the buffer until the 512-character cap, after
which they are dropped; the newline emits the buffer and clears it. -/
theorem processSerial_line (P : List Char) :
    ∀ (buf : List Char), '\n' ∉ P → buf.length ≤ 512 →
      processSerial buf (P ++ ['\n']) =
        ([], [buf ++ ((P.filter (fun c => c != '\r')).take (512 - buf.length))]) := by
  induction P with
  | nil =>
    intro buf _ _
    simp [processSerial, serialStep]
  | cons c P ih =>
    intro buf hn hb
    have hcn : c ≠ '\n' := fun h => hn (h ▸ List.mem_cons_self c P)
    have hn' : '\n' ∉ P := fun h => hn (List.mem_cons_of_mem c h)
    rw [List.cons_append]
    by_cases hc : c = '\r'
    · subst hc
      rw [processSerial_cons_cr, ih buf hn' hb]
      simp [List.filter_cons]
    · rw [processSerial_cons_other buf (P ++ ['\n']) c hc hcn]
      have hfc : (c :: P).filter (fun x => x != '\r') =
          c :: P.filter (fun x => x != '\r') := by
        simp [List.filter_cons, hc]
      by_cases hlt : buf.length < 512
      · rw [if_pos hlt, ih (buf ++ [c]) hn' (by simp; omega)]
        rw [hfc]
        have hk : 512 - buf.length = (512 - (buf ++ [c]).length) + 1 := by
          simp
          omega
        rw [hk, List.take_succ_cons]
        simp
      · rw [if_neg hlt, ih buf hn' hb]
        have h512 : buf.length = 512 := by omega
        rw [hfc, h512]
        simp

/-- C4: feeding a prompt `P` of length at most 512 with no newline, followed
by a newline, emits exactly one prompt event — `P` with any interleaved
carriage returns discarded — and leaves the accumulation buffer empty. -/
theorem handleSerialInput_one_line (P : List Char)
    (hn : '\n' ∉ P) (hlen : P.length ≤ 512) :
    processSerial [] (P ++ ['\n']) = ([], [P.filter (fun c => c != '\r')]) := by
  rw [processSerial_line P [] hn (by simp)]
  have : (P.filter (fun c => c != '\r')).length ≤ 512 :=
    le_trans (List.length_filter_le _ _) hlen
  simp [List.take_of_length_le this]

/-- C4 (witness): a concrete line with an interleaved carriage return. -/
theorem handleSerialInput_one_line_witness :
    processSerial [] ((['h', 'i', '\r', 'o'] : List Char) ++ ['\n']) =
      ([], [(['h', 'i', '\r', 'o'] : List Char).filter (fun c => c != '\r')]) :=
  handleSerialInput_one_line ['h', 'i', '\r', 'o'] (by decide) (by decide)

/-- One serial step keeps the buffer within the 512-character cap. -/
theorem serialStep_length (buf : List Char) (c : Char) (h : buf.length ≤ 512) :
    (serialStep buf c).1.length ≤ 512 := by
  unfold serialStep
  split
  · exact h
  · split
    · simp
    · split
      · simp
        rename_i hlt
        omega
      · exact h

/-- C5: the pending buffer never exceeds 512 characters, and on a line
longer than the cap the characters beyond the first 512 are dropped: they do
not appear in the emitted prompt event. -/
theorem handleSerialInput_cap :
    (∀ (buf cs : List Char), buf.length ≤ 512 →
      ((processSerial buf cs).1).length ≤ 512) ∧
    (∀ P : List Char, '\n' ∉ P → '\r' ∉ P → 512 < P.length →
      processSerial [] (P ++ ['\n']) = ([], [P.take 512])) := by
  constructor
  · intro buf cs
    induction cs generalizing buf with
    | nil => intro h; simpa [processSerial] using h
    | cons c cs ih =>
      intro h
      simp only [processSerial]
      exact ih _ (serialStep_length buf c h)
  · intro P hn hr hlong
    rw [processSerial_line P [] hn (by simp)]
    have hfe : P.filter (fun c => c != '\r') = P := by
      rw [List.filter_eq_self]
      intro a ha
      simp
      exact fun h => hr (h ▸ ha)
    rw [hfe]
    simp

/-- C5 (witness): the cap invariant and the overflow-drop behaviour at
concrete inputs (a 513-character line keeps only its first 512 characters). -/
theorem handleSerialInput_cap_witness :
    ((processSerial [] ['a']).1).length ≤ 512 ∧
    processSerial [] (List.replicate 513 'x' ++ ['\n']) =
      ([], [(List.replicate 513 'x').take 512]) :=
  ⟨handleSerialInput_cap.1 [] ['a'] (by decide),
   handleSerialInput_cap.2 (List.replicate 513 'x')
     (fun h => absurd (List.eq_of_mem_replicate h) (by decide))
     (fun h => absurd (List.eq_of_mem_replicate h) (by decide))
     (by rw [List.length_replicate]; omega)⟩

/-- C6 (counterexample): the claim promises an event "whenever at least
60 ms have elapsed", but the code's guard is strict: a falling edge observed
exactly 60 ms after the last recognized edge, while not latched, emits
nothing and does not latch. -/
theorem handleBootButton_claim_counterexample :
    handleBootButton ("Give me a short status update.") ⟨false, 0⟩ true 60 =
      (⟨false, 0⟩, none) := rfl

/-- C6 (amended, the guard is strictly more than 60 ms): a falling edge
while not latched and with more than 60 ms elapsed emits exactly one event
with the configured prompt and latches; two falling edges less than 60 ms
apart yield exactly one event; a rising edge while latched with the same
strict guard clears the latch and emits nothing. -/
theorem handleBootButton_debounce (prompt : String) :
    (∀ (s : ButtonState) (now : Nat), s.latched = false →
        u32sub now s.lastEdgeMs > 60 →
        handleBootButton prompt s true now = (⟨true, now⟩, some prompt)) ∧
    (∀ (s : ButtonState) (t1 t2 : Nat), s.latched = false →
        u32sub t1 s.lastEdgeMs > 60 → u32sub t2 t1 < 60 →
        (runButton prompt s [(true, t1), (true, t2)]).2 = [prompt]) ∧
    (∀ (s : ButtonState) (now : Nat), s.latched = true →
        u32sub now s.lastEdgeMs > 60 →
        handleBootButton prompt s false now = (⟨false, now⟩, none)) := by
  refine ⟨?_, ?_, ?_⟩
  · intro s now hl hg
    simp [handleBootButton, hl, hg]
  · intro s t1 t2 hl hg _
    simp [runButton, handleBootButton, hl, hg]
  · intro s now hl hg
    simp [handleBootButton, hl, hg]

/-- C6 (witness): concrete edges around a concrete debounce window. -/
theorem handleBootButton_debounce_witness :
    handleBootButton ("p") ⟨false, 0⟩ true 100 = (⟨true, 100⟩, some ("p")) ∧
    (runButton ("p") ⟨false, 0⟩ [(true, 100), (true, 130)]).2 = [("p")] ∧
    handleBootButton ("p") ⟨true, 100⟩ false 200 = (⟨false, 200⟩, none) :=
  ⟨(handleBootButton_debounce ("p")).1 ⟨false, 0⟩ 100 rfl (by decide),
   (handleBootButton_debounce ("p")).2.1 ⟨false, 0⟩ 100 130 rfl (by decide) (by decide),
   (handleBootButton_debounce ("p")).2.2 ⟨true, 100⟩ 200 rfl (by decide)⟩

/-- C10: while the latch is set, no poll emits an event, no matter the level
or the time; a held-pressed sequence of polls changes nothing; and the latch
clears exactly on a rising (high) level observed strictly more than 60 ms
after the last recognized edge. -/
theorem handleBootButton_latched_quiescent (prompt : String) (s : ButtonState)
    (hl : s.latched = true) :
    (∀ (low : Bool) (now : Nat), (handleBootButton prompt s low now).2 = none) ∧
    (∀ polls : List (Bool × Nat), (∀ p ∈ polls, p.1 = true) →
        runButton prompt s polls = (s, [])) ∧
    (∀ (low : Bool) (now : Nat),
        ((handleBootButton prompt s low now).1.latched = false ↔
          (low = false ∧ u32sub now s.lastEdgeMs > 60))) := by
  refine ⟨?_, ?_, ?_⟩
  · intro low now
    cases low <;> by_cases hg : u32sub now s.lastEdgeMs > 60 <;>
      simp [handleBootButton, hl, hg]
  · intro polls
    induction polls with
    | nil => intro _; rfl
    | cons p ps ih =>
      intro hall
      have hp : p.1 = true := hall p (List.mem_cons_self p ps)
      have hstep : handleBootButton prompt s p.1 p.2 = (s, none) := by
        rw [hp]
        simp [handleBootButton, hl]
      simp only [runButton, hstep]
      rw [ih (fun q hq => hall q (List.mem_cons_of_mem p hq))]
      rfl
  · intro low now
    cases low <;> by_cases hg : u32sub now s.lastEdgeMs > 60 <;>
      simp [handleBootButton, hl, hg]

/-- C10 (witness): a latched state at concrete polls. -/
theorem handleBootButton_latched_quiescent_witness :
    (handleBootButton ("p") ⟨true, 0⟩ true 1000).2 = none ∧
    runButton ("p") ⟨true, 0⟩ [(true, 10), (true, 500)] = (⟨true, 0⟩, []) ∧
    ((handleBootButton ("p") ⟨true, 0⟩ false 100).1.latched = false ↔
      (false = false ∧ u32sub 100 0 > 60)) :=
  ⟨(handleBootButton_latched_quiescent ("p") ⟨true, 0⟩ rfl).1 true 1000,
   (handleBootButton_latched_quiescent ("p") ⟨true, 0⟩ rfl).2.1
     [(true, 10), (true, 500)] (by decide),
   (handleBootButton_latched_quiescent ("p") ⟨true, 0⟩ rfl).2.2 false 100⟩

/-- C1: `askOpenClaw`'s outcome classification refines the spec's tagged
`ChatResult`, in the spec's order: non-positive status → `TransportError`
with the code; status ≥ 400 → `HttpError` with the status and the raw
(unparsed) body; then a JSON parse failure → `ParseError` with the
diagnostic; then a present `error.message` → `GatewayError` with the message
(even under a success status, before any reply extraction); then a missing
`choices[0].message.content` → `SchemaError`; only otherwise `Reply`. -/
theorem askOpenClaw_classification (code : Int) (raw : String) :
    askOpenClawResult code raw = (classifySpec code raw).render := by
  by_cases h1 : code ≤ 0
  · simp [askOpenClawResult, classifySpec, ChatResult.render, h1]
  · by_cases h2 : code ≥ 400
    · simp [askOpenClawResult, classifySpec, ChatResult.render, h1, h2]
    · simp only [askOpenClawResult, classifySpec, if_neg h1, if_neg h2, extractAssistantText]
      cases hd : deserializeJson raw with
      | error e => simp [ChatResult.render]
      | ok doc =>
        cases hm : errorMessageField doc with
        | some m => simp [hm, ChatResult.render]
        | none =>
          cases hc : choicesContentField doc with
          | some t => simp [hm, hc, ChatResult.render]
          | none => simp [hm, hc, ChatResult.render]

/-- C7: serializing a `ChatRequest` yields exactly the body
`{"model": m, "user": u, "messages": [{"role":"user","content": p}]}` with
the prompt JSON-escaped; for the prompt `hello "world"` the embedded quotes
are escaped in the body; and classifying the synthetic success response
`{"choices":[{"message":{"content":"hi"}}]}` yields `Reply("hi")` (both as
the spec's tagged result and as the firmware's display string). -/
theorem chatRequest_round_trip :
    (∀ m u p : String, (chatRequestBody m u p).data =
      ("\x7b\"model\":\"").data ++ (escapeString m).data ++
      ("\",\"user\":\"").data ++ (escapeString u).data ++
      ("\",\"messages\":[\x7b\"role\":\"user\",\"content\":\"").data ++
      (escapeString p).data ++ ("\"\x7d]\x7d").data) ∧
    chatRequestBody ("openclaw") ("esp32-speaker") ("hello \"world\"") =
      "\x7b\"model\":\"openclaw\",\"user\":\"esp32-speaker\",\"messages\":[\x7b\"role\":\"user\",\"content\":\"hello \\\"world\\\"\"\x7d]\x7d" ∧
    classifySpec 200 ("\x7b\"choices\":[\x7b\"message\":\x7b\"content\":\"hi\"\x7d\x7d]\x7d") =
      ChatResult.Reply ("hi") ∧
    askOpenClawResult 200 ("\x7b\"choices\":[\x7b\"message\":\x7b\"content\":\"hi\"\x7d\x7d]\x7d") =
      "hi" := by
  refine ⟨?_, rfl, rfl, rfl⟩
  intro m u p
  have e1 : escapeString ("model") = "model" := rfl
  have e2 : escapeString ("user") = "user" := rfl
  have e3 : escapeString ("messages") = "messages" := rfl
  have e4 : escapeString ("role") = "role" := rfl
  have e5 : escapeString ("content") = "content" := rfl
  simp [chatRequestBody, chatRequestDoc, Json.render, renderItems, renderFields,
    e1, e2, e3, e4, e5, String.data_append, List.append_assoc]

/-- The poll loop spins forever when no status read ever reports
connected. -/
theorem wifiLoop_none (status : Nat → Bool) (h : ∀ i, status i = false) :
    ∀ (fuel i att : Nat), wifiLoop status fuel i att = none := by
  intro fuel
  induction fuel with
  | zero => intro i att; rfl
  | succ f ih =>
    intro i att
    simp [wifiLoop, h i, ih]

/-- When the first connected status read inside the loop is `m` iterations
away, the loop returns a trace of `m` polls (each a 500 ms delay and a
progress dot), with a disconnect / 500 ms wait / re-association cycle after
every completed 80 consecutive unsuccessful polls. -/
theorem wifiLoop_success (status : Nat → Bool) :
    ∀ (m fuel i att : Nat), (∀ j, i ≤ j → j < i + m → status j = false) →
      status (i + m) = true → m < fuel → att < 80 →
      ∃ tr, wifiLoop status fuel i att = some tr ∧
        countAct WifiAct.printDot tr = m ∧
        countAct WifiAct.disconnect tr = (att + m) / 80 ∧
        countAct WifiAct.beginAssoc tr = (att + m) / 80 ∧
        countAct (WifiAct.delayMs 500) tr = m + (att + m) / 80 ∧
        (∀ x ∈ tr, x = WifiAct.printDot ∨ x = WifiAct.disconnect ∨
          x = WifiAct.beginAssoc ∨ x = WifiAct.delayMs 500) := by
  intro m
  induction m with
  | zero =>
    intro fuel i att hfail hsucc hfuel hatt
    cases fuel with
    | zero => omega
    | succ f =>
      have hi : status i = true := by simpa using hsucc
      refine ⟨[], ?_, ?_, ?_, ?_, ?_, ?_⟩
      · simp [wifiLoop, hi]
      · rfl
      · simp [countAct, Nat.div_eq_of_lt, hatt]
      · simp [countAct, Nat.div_eq_of_lt, hatt]
      · simp [countAct, Nat.div_eq_of_lt, hatt]
      · intro x hx; simp at hx
  | succ m ih =>
    intro fuel i att hfail hsucc hfuel hatt
    cases fuel with
    | zero => omega
    | succ f =>
      have hi : status i = false := hfail i (le_refl i) (by omega)
      have hsucc' : status (i + 1 + m) = true := by
        have e : i + 1 + m = i + (m + 1) := by omega
        rw [e]; exact hsucc
      have hfail' : ∀ j, i + 1 ≤ j → j < i + 1 + m → status j = false :=
        fun j h1 h2 => hfail j (by omega) (by omega)
      by_cases hbig : att + 1 ≥ 80
      · obtain ⟨tr, htr, c1, c2, c3, c4, c5⟩ :=
          ih f (i + 1) 0 hfail' hsucc' (by omega) (by norm_num)
        refine ⟨WifiAct.delayMs 500 :: WifiAct.printDot :: WifiAct.disconnect ::
          WifiAct.delayMs 500 :: WifiAct.beginAssoc :: tr, ?_, ?_, ?_, ?_, ?_, ?_⟩
        · simp only [wifiLoop, hi]
          rw [if_neg (by simp), if_pos hbig, htr]
          rfl
        · simp [countAct]; omega
        · simp [countAct]; omega
        · simp [countAct]; omega
        · simp [countAct]; omega
        · intro x hx
          simp only [List.mem_cons] at hx
          rcases hx with h | h | h | h | h | h
          · exact Or.inr (Or.inr (Or.inr h))
          · exact Or.inl h
          · exact Or.inr (Or.inl h)
          · exact Or.inr (Or.inr (Or.inr h))
          · exact Or.inr (Or.inr (Or.inl h))
          · exact c5 x h
      · obtain ⟨tr, htr, c1, c2, c3, c4, c5⟩ :=
          ih f (i + 1) (att + 1) hfail' hsucc' (by omega) (by omega)
        refine ⟨WifiAct.delayMs 500 :: WifiAct.printDot :: tr, ?_, ?_, ?_, ?_, ?_, ?_⟩
        · simp only [wifiLoop, hi]
          rw [if_neg (by simp), if_neg hbig, htr]
          rfl
        · simp [countAct]; omega
        · simp [countAct]
          have e : att + (m + 1) = att + 1 + m := by omega
          rw [e]; omega
        · simp [countAct]
          have e : att + (m + 1) = att + 1 + m := by omega
          rw [e]; omega
        · simp [countAct]
          have e : att + (m + 1) = att + 1 + m := by omega
          rw [e]; omega
        · intro x hx
          simp only [List.mem_cons] at hx
          rcases hx with h | h | h
          · exact Or.inr (Or.inr (Or.inr h))
          · exact Or.inl h
          · exact c5 x h

/-- C8: `connectWifiBlocking` returns immediately as a no-op when already
connected; it never returns unless some status read is connected (so it
retries indefinitely and never returns an error); and when the first
connected read is the `n`-th, it performs `n - 1` polls at 500 ms intervals
with one disconnect-and-retry cycle (disconnect, 500 ms wait, re-begin) per
80 consecutive unsuccessful polls. -/
theorem connectWifiBlocking_spec (status : Nat → Bool) :
    (status 0 = true → ∀ fuel, connectWifiBlocking status fuel = some []) ∧
    ((∀ i, status i = false) → ∀ fuel, connectWifiBlocking status fuel = none) ∧
    (∀ fuel tr, connectWifiBlocking status fuel = some tr → ∃ i, status i = true) ∧
    (∀ n fuel, (∀ j, j < n → status j = false) → status n = true → 1 ≤ n → n ≤ fuel →
      ∃ tr, connectWifiBlocking status fuel = some (WifiAct.beginAssoc :: tr) ∧
        countAct WifiAct.printDot tr = n - 1 ∧
        countAct WifiAct.disconnect tr = (n - 1) / 80 ∧
        countAct WifiAct.beginAssoc tr = (n - 1) / 80 ∧
        countAct (WifiAct.delayMs 500) tr = (n - 1) + (n - 1) / 80 ∧
        (∀ ms, WifiAct.delayMs ms ∈ WifiAct.beginAssoc :: tr → ms = 500)) := by
  refine ⟨?_, ?_, ?_, ?_⟩
  · intro h fuel
    simp [connectWifiBlocking, h]
  · intro h fuel
    simp [connectWifiBlocking, h 0, wifiLoop_none status h]
  · intro fuel tr htr
    by_contra hno
    push_neg at hno
    have hall : ∀ i, status i = false := fun i => by
      cases hs : status i with
      | false => rfl
      | true => exact absurd hs (hno i)
    rw [connectWifiBlocking, if_neg (by simp [hall 0]), wifiLoop_none status hall] at htr
    simp at htr
  · intro n fuel hfail hsucc hn hfuel
    have h0 : status 0 = false := hfail 0 (by omega)
    obtain ⟨tr, htr, c1, c2, c3, c4, c5⟩ :=
      wifiLoop_success status (n - 1) fuel 1 0
        (fun j h1 h2 => hfail j (by omega))
        (by have e : 1 + (n - 1) = n := by omega
            exact (congrArg status e).trans hsucc)
        (by omega) (by norm_num)
    refine ⟨tr, ?_, c1, by simpa using c2, by simpa using c3, by simpa using c4, ?_⟩
    · rw [connectWifiBlocking, if_neg (by simp [h0]), htr]
      rfl
    · intro ms hms
      rcases List.mem_cons.mp hms with h | h
      · cases h
      · rcases c5 _ h with h' | h' | h' | h'
        · cases h'
        · cases h'
        · cases h'
        · exact WifiAct.delayMs.inj h'

/-- C8 (witness): an always-connected oracle, and an oracle that first
reports connected on read 100 (99 failed polls, one retry cycle). -/
theorem connectWifiBlocking_spec_witness :
    connectWifiBlocking (fun _ => true) 5 = some [] ∧
    (∃ tr, connectWifiBlocking (fun i => decide (100 ≤ i)) 200 =
        some (WifiAct.beginAssoc :: tr) ∧
      countAct WifiAct.printDot tr = 99 ∧
      countAct WifiAct.disconnect tr = 1 ∧
      countAct WifiAct.beginAssoc tr = 1 ∧
      countAct (WifiAct.delayMs 500) tr = 100 ∧
      (∀ ms, WifiAct.delayMs ms ∈ WifiAct.beginAssoc :: tr → ms = 500)) :=
  ⟨(connectWifiBlocking_spec (fun _ => true)).1 rfl 5,
   (connectWifiBlocking_spec (fun i => decide (100 ≤ i))).2.2.2 100 200 (by decide) (by decide)
     (by omega) (by omega)⟩

end OpenClaw
